import Mathlib

/-!
Verification of the streaming session subsystem of the ftx client
(src/src/ws/mod.rs), as a shallow embedding: the live socket is replaced by a
tape of decoded inbound frames handed to each operation, outgoing op frames
are returned explicitly, and network and clock effects of connection
establishment are abstract inputs.  The typed record and error definitions
live in ws/model.rs and ws/error.rs, which are not among the sources; those
are modelled from the spec, as marked.
-/

namespace Ftx

/-- Market symbol, a plain string (rest/model.rs line 7: pub type Symbol = String). -/
abbrev Symbol := String

/-- Subscription channels (ws/model.rs, reconstructed from the exhaustive
pattern match in ws/mod.rs lines 230-236). -/
inductive Channel where
  | Orderbook (symbol : Symbol)
  | Trades (symbol : Symbol)
  | Ticker (symbol : Symbol)
  | Fills
  | Orders
  deriving DecidableEq

/-- Modelled from the spec: the typed trade record of ws/model.rs is not in
the sources; its fields are irrelevant to the session logic, so it is a tag. -/
structure Trade where
  tag : Nat
  deriving DecidableEq

/-- Modelled from the spec: the orderbook-delta record of ws/model.rs. -/
structure OrderbookData where
  tag : Nat
  deriving DecidableEq

/-- Modelled from the spec: the fill record of ws/model.rs. -/
structure Fill where
  tag : Nat
  deriving DecidableEq

/-- Modelled from the spec: the ticker record of ws/model.rs. -/
structure Ticker where
  tag : Nat
  deriving DecidableEq

/-- Modelled from the spec: the order-update record of ws/model.rs. -/
structure Order where
  tag : Nat
  deriving DecidableEq

/-- Modelled from the spec: the inbound frame discriminant (Type in
ws/model.rs): subscribed, unsubscribed, pong, data updates and error.  The
wire values partial and update are both data updates and are merged into
Update here; only Subscribed, Unsubscribed and Pong are ever distinguished by
ws/mod.rs. -/
inductive Type' where
  | Subscribed
  | Unsubscribed
  | Pong
  | Update
  | Err
  deriving DecidableEq

/-- Payload of an inbound frame (ResponseData in ws/model.rs, reconstructed
from its uses in handle_response, lines 307-329): only trades are batched. -/
inductive ResponseData where
  | Trades (trades : List Trade)
  | OrderbookData (orderbook : OrderbookData)
  | Fill (fill : Fill)
  | Ticker (ticker : Ticker)
  | Order (order : Order)
  deriving DecidableEq

/-- The consumer-visible payload (Data in ws/model.rs, reconstructed from its
uses in handle_response). -/
inductive Data where
  | Trade (trade : Trade)
  | OrderbookData (orderbook : OrderbookData)
  | Fill (fill : Fill)
  | Ticker (ticker : Ticker)
  | Order (order : Order)
  deriving DecidableEq

/-- Modelled from the spec: a decoded inbound frame (Response in
ws/model.rs): a discriminant plus optional channel name, optional market
symbol and optional payload, each independent of the discriminant. -/
structure Response where
  type : Type'
  channel : Option String := none
  market : Option Symbol := none
  data : Option ResponseData := none
  deriving DecidableEq

/-- Modelled from the spec: the error kinds of ws/error.rs (not in the
sources): connection failure, decode failure, and the three protocol errors
constructed in ws/mod.rs. -/
inductive Error where
  | ConnectionError
  | ProtocolDecodeError
  | SocketNotAuthenticated
  | NotSubscribedToThisChannel (channel : Channel)
  | MissingSubscriptionConfirmation
  deriving DecidableEq

/-- The session state (struct Ws, ws/mod.rs lines 65-72) without the live
socket and the timer: the socket is modelled as a tape of decoded frames
passed to each operation, and the timer branch of the select only sends a
ping op frame, touching none of the state kept here. -/
structure Ws where
  channels : List Channel
  buf : List (Option Symbol × Data)
  is_authenticated : Bool
  deriving DecidableEq

/-- An outgoing subscribe or unsubscribe op frame (the json object built at
ws/mod.rs lines 240-246). -/
structure OpFrame where
  op : String
  channel : String
  market : String
  deriving DecidableEq

/-- The key-value pairs of the serialized op frame, in the order of the json
literal at ws/mod.rs lines 240-246. -/
def OpFrame.fields (f : OpFrame) : List (String × String) :=
  [("op", f.op), ("channel", f.channel), ("market", f.market)]

/-- Wire channel name and market string of a channel (ws/mod.rs lines
230-236): Fills and Orders use the empty market string. -/
def Channel.wire : Channel → String × Symbol
  | Channel.Orderbook symbol => ("orderbook", symbol)
  | Channel.Trades symbol => ("trades", symbol)
  | Channel.Ticker symbol => ("ticker", symbol)
  | Channel.Fills => ("fills", "")
  | Channel.Orders => ("orders", "")

/-- The op frame sent for one channel (ws/mod.rs lines 223-247). -/
def opFrame (subscribe : Bool) (c : Channel) : OpFrame :=
  { op := if subscribe then "subscribe" else "unsubscribe"
    channel := c.wire.1
    market := c.wire.2 }

/-- handle_response (ws/mod.rs lines 305-331): push the contents of a frame
onto the back of the event buffer; a trades payload is expanded into one
event per trade, in list order, each paired with the frame market. -/
def Ws.handle_response (ws : Ws) (response : Response) : Ws :=
  match response.data with
  | some (ResponseData.Trades trades) =>
      { ws with buf := ws.buf ++ trades.map (fun trade => (response.market, Data.Trade trade)) }
  | some (ResponseData.OrderbookData orderbook) =>
      { ws with buf := ws.buf ++ [(response.market, Data.OrderbookData orderbook)] }
  | some (ResponseData.Fill fill) =>
      { ws with buf := ws.buf ++ [(response.market, Data.Fill fill)] }
  | some (ResponseData.Ticker ticker) =>
      { ws with buf := ws.buf ++ [(response.market, Data.Ticker ticker)] }
  | some (ResponseData.Order order) =>
      { ws with buf := ws.buf ++ [(response.market, Data.Order order)] }
  | none => ws

/-- The events a frame contributes to the buffer; handle_response appends
exactly this list (lemma handle_response_eq below). -/
def frameEvents (response : Response) : List (Option Symbol × Data) :=
  match response.data with
  | some (ResponseData.Trades trades) =>
      trades.map (fun trade => (response.market, Data.Trade trade))
  | some (ResponseData.OrderbookData orderbook) => [(response.market, Data.OrderbookData orderbook)]
  | some (ResponseData.Fill fill) => [(response.market, Data.Fill fill)]
  | some (ResponseData.Ticker ticker) => [(response.market, Data.Ticker ticker)]
  | some (ResponseData.Order order) => [(response.market, Data.Order order)]
  | none => []

/-- next_response (ws/mod.rs lines 280-302) on the tape: return the first
frame that is not a pong, with the rest of the tape; none when the tape is
exhausted (the real loop would then block on the socket).  The keep-alive
branch of the select only sends a ping op frame and changes none of the
modelled state, so it is dropped. -/
def next_response : List Response → Option (Response × List Response)
  | [] => none
  | r :: rest => if r.type == Type'.Pong then next_response rest else some (r, rest)

/-- The frames of the tape that the reader can ever return: pongs removed. -/
def nonPong (tape : List Response) : List Response :=
  tape.filter (fun r => !(r.type == Type'.Pong))

/-- The match guards of the confirmation wait (ws/mod.rs lines 252-266): a
frame confirms exactly when its type matches the direction of the call. -/
def isConfirm (subscribe : Bool) (r : Response) : Bool :=
  (subscribe && r.type == Type'.Subscribed) || (!subscribe && r.type == Type'.Unsubscribed)

/-- The bounded confirmation wait (ws/mod.rs lines 249-272): read up to fuel
frames through next_response; a frame of the matching confirmation type ends
the wait with true, any other frame is fed to handle_response; fuel exhausted
yields false.  none when the tape runs dry (the real loop would block). -/
def Ws.waitConfirm : Ws → Bool → Nat → List Response → Option (Bool × Ws × List Response)
  | ws, _, 0, tape => some (false, ws, tape)
  | ws, subscribe, fuel + 1, tape =>
    match next_response tape with
    | none => none
    | some (r, tape') =>
      if isConfirm subscribe r then some (true, ws, tape')
      else Ws.waitConfirm (ws.handle_response r) subscribe fuel tape'

/-- subscribe_or_unsubscribe (ws/mod.rs lines 218-278): per channel, in
order, emit the op frame then wait for the confirmation within a bound of
100 reads; a missed confirmation fails the whole call, leaving the remaining
channels unattempted.  Returns the call result, the session, the remaining
tape and the op frames sent, in order; none when the tape runs dry. -/
def Ws.subscribe_or_unsubscribe : Ws → List Channel → Bool → List Response →
    Option (Except Error Unit × Ws × List Response × List OpFrame)
  | ws, [], _, tape => some (Except.ok (), ws, tape, [])
  | ws, c :: rest, subscribe, tape =>
    match ws.waitConfirm subscribe 100 tape with
    | none => none
    | some (true, ws', tape') =>
      match Ws.subscribe_or_unsubscribe ws' rest subscribe tape' with
      | none => none
      | some (res, ws'', tape'', sent) => some (res, ws'', tape'', opFrame subscribe c :: sent)
    | some (false, ws', tape') =>
      some (Except.error Error.MissingSubscriptionConfirmation, ws', tape', [opFrame subscribe c])

/-- The auth-check-and-push loop at the top of subscribe (ws/mod.rs lines
177-184): channels are pushed one at a time; meeting Fills or Orders on an
unauthenticated session stops with SocketNotAuthenticated, keeping the pushes
already made. -/
def Ws.pushChannels : Ws → List Channel → Ws × Option Error
  | ws, [] => (ws, none)
  | ws, c :: rest =>
    if (c == Channel.Fills || c == Channel.Orders) && !ws.is_authenticated then
      (ws, some Error.SocketNotAuthenticated)
    else
      Ws.pushChannels { ws with channels := ws.channels ++ [c] } rest

/-- subscribe (ws/mod.rs lines 176-189): run the auth-check-and-push loop,
then the per-channel protocol. -/
def Ws.subscribe (ws : Ws) (channels : List Channel) (tape : List Response) :
    Option (Except Error Unit × Ws × List Response × List OpFrame) :=
  match ws.pushChannels channels with
  | (ws₁, some e) => some (Except.error e, ws₁, tape, [])
  | (ws₁, none) => ws₁.subscribe_or_unsubscribe channels true tape

/-- unsubscribe (ws/mod.rs lines 192-207): reject the call on the first
requested channel missing from the active list, otherwise run the protocol
and finally retain only the channels not in the request. -/
def Ws.unsubscribe (ws : Ws) (channels : List Channel) (tape : List Response) :
    Option (Except Error Unit × Ws × List Response × List OpFrame) :=
  match channels.find? (fun c => !(ws.channels.contains c)) with
  | some c => some (Except.error (Error.NotSubscribedToThisChannel c), ws, tape, [])
  | none =>
    match ws.subscribe_or_unsubscribe channels false tape with
    | none => none
    | some (Except.ok _, ws', tape', sent) =>
      some (Except.ok (),
        { ws' with channels := ws'.channels.filter (fun c => !(channels.contains c)) },
        tape', sent)
    | some (Except.error e, ws', tape', sent) => some (Except.error e, ws', tape', sent)

/-- poll_next of the Stream instance (ws/mod.rs lines 337-358) on the tape:
pop the oldest buffered event if any, otherwise read the next frame and
demultiplex it, looping.  The call to next_response is inlined here with its
pong skip, keeping the recursion structural on the tape; the lemmas
poll_next_pop and poll_next_read below recover the original shape.  none
when the tape runs dry (the real poll would stay pending). -/
def Ws.poll_next : Ws → List Response → Option ((Option Symbol × Data) × Ws × List Response)
  | ⟨chans, d :: rest, auth⟩, tape => some (d, ⟨chans, rest, auth⟩, tape)
  | ⟨_, [], _⟩, [] => none
  | ⟨chans, [], auth⟩, r :: tape' =>
    if r.type == Type'.Pong then Ws.poll_next ⟨chans, [], auth⟩ tape'
    else Ws.poll_next (Ws.handle_response ⟨chans, [], auth⟩ r) tape'

/-- n successive consumer polls, collecting the delivered events in order. -/
def Ws.drainN : Nat → Ws → List Response →
    Option (List (Option Symbol × Data) × Ws × List Response)
  | 0, ws, tape => some ([], ws, tape)
  | n + 1, ws, tape =>
    match ws.poll_next tape with
    | none => none
    | some (d, ws', tape') =>
      match Ws.drainN n ws' tape' with
      | none => none
      | some (ds, ws'', tape'') => some (d :: ds, ws'', tape'')

/-- Which stage of establishing the connection fails, an input of the model:
the real code performs network IO here (ws/mod.rs lines 83-108). -/
inductive ConnectStep where
  | ok
  | proxyDialFail
  | tlsFail
  | wsHandshakeFail
  deriving DecidableEq

/-- The login op frame (the json object at ws/mod.rs lines 121-129). -/
structure LoginFrame where
  key : String
  sign : String
  time : Nat
  subaccount : Option String
  deriving DecidableEq

/-- Result of running connect: a session, an error return, or a panic. -/
inductive ConnectOutcome where
  | session (ws : Ws)
  | error (e : Error)
  | panicked (msg : String)
  deriving DecidableEq

/-- True exactly on the panic outcome. -/
def ConnectOutcome.isPanicked : ConnectOutcome → Bool
  | ConnectOutcome.panicked _ => true
  | _ => false

/-- True exactly when a session value was produced. -/
def ConnectOutcome.isSession : ConnectOutcome → Bool
  | ConnectOutcome.session _ => true
  | _ => false

/-- One lowercase hex digit. -/
def hexDigit (n : Nat) : Char :=
  if n < 10 then Char.ofNat (48 + n) else Char.ofNat (87 + n)

/-- Lowercase hex encoding of a byte list, high nibble first (the hex crate,
ws/mod.rs line 117). -/
def hexEncode (bytes : List Nat) : String :=
  String.mk (bytes.foldr (fun b acc => hexDigit (b / 16 % 16) :: hexDigit (b % 16) :: acc) [])

/-- UTF-8 bytes of a string, as naturals. -/
def strBytes (s : String) : List Nat :=
  s.toUTF8.toList.map (fun b => b.toNat)

/-- connect_with_endpoint (ws/mod.rs lines 77-141).  Network IO is abstract:
step says which stage of establishing the connection fails, hmac is the
external HMAC-SHA256 of the hmac_sha256 crate (data bytes first, key bytes
second, as in HMAC::mac(sign_payload, secret)), and timestamp is the
unix-epoch clock reading in milliseconds.  Returns the outcome with the login
frames sent during construction.  On the proxied path the code unwraps the
dial, TLS and handshake results, so a failure there panics instead of
returning; on the direct path the connect_async failure propagates through
the question-mark operator (modelled from the spec as ConnectionError, since
ws/error.rs is not in the sources).  The time field is the u64 cast of the
u128 millisecond timestamp, while the signed payload uses the full value. -/
def connect_with_endpoint (hmac : List Nat → List Nat → List Nat) (timestamp : Nat)
    (key_secret : Option (String × String)) (subaccount : Option String)
    (proxy : Option String) (step : ConnectStep) : ConnectOutcome × List LoginFrame :=
  match proxy, step with
  | some _, ConnectStep.proxyDialFail => (ConnectOutcome.panicked "cannot connect to proxy", [])
  | some _, ConnectStep.tlsFail => (ConnectOutcome.panicked "cannot create tls stream", [])
  | some _, ConnectStep.wsHandshakeFail =>
      (ConnectOutcome.panicked "called unwrap on an Err value", [])
  | none, ConnectStep.proxyDialFail => (ConnectOutcome.error Error.ConnectionError, [])
  | none, ConnectStep.tlsFail => (ConnectOutcome.error Error.ConnectionError, [])
  | none, ConnectStep.wsHandshakeFail => (ConnectOutcome.error Error.ConnectionError, [])
  | _, ConnectStep.ok =>
    match key_secret with
    | some (key, secret) =>
      let sign_payload := toString timestamp ++ "websocket_login"
      let sign := hexEncode (hmac (strBytes sign_payload) (strBytes secret))
      (ConnectOutcome.session { channels := [], buf := [], is_authenticated := true },
        [{ key := key, sign := sign, time := timestamp % 2 ^ 64, subaccount := subaccount }])
    | none =>
      (ConnectOutcome.session { channels := [], buf := [], is_authenticated := false }, [])


/-! Concrete fixtures for counterexamples and witnesses. -/

/-- The fresh session state of an unauthenticated connect. -/
def wsEmpty : Ws := { channels := [], buf := [], is_authenticated := false }

/-- A market-data channel used in concrete runs. -/
def t1 : Channel := Channel.Trades "BTC-PERP"

/-- A ticker channel used in concrete runs. -/
def tick : Channel := Channel.Ticker "BTC-PERP"

/-- A trades channel no concrete session is subscribed to. -/
def tEth : Channel := Channel.Trades "ETH-PERP"

/-- A subscription confirmation frame. -/
def subConf : Response := { type := Type'.Subscribed }

/-- A data-update frame carrying no payload. -/
def junk : Response := { type := Type'.Update }

/-- A pong frame. -/
def pongR : Response := { type := Type'.Pong }

/-- A subscribed-type frame that nevertheless carries a trades payload. -/
def sneaky : Response :=
  { type := Type'.Subscribed
    market := some "BTC-PERP"
    data := some (ResponseData.Trades [⟨7⟩]) }

/-- A data frame carrying one trade. -/
def tradeFrame : Response :=
  { type := Type'.Update
    market := some "BTC-PERP"
    data := some (ResponseData.Trades [⟨7⟩]) }

/-- A session subscribed to Orders only. -/
def wsOrders : Ws := { channels := [Channel.Orders], buf := [], is_authenticated := true }

/-- A stand-in for the external HMAC function in concrete runs. -/
def hmacConcat : List Nat → List Nat → List Nat := fun dataBytes keyBytes => dataBytes ++ keyBytes


/-- A data frame carrying a batch of three trades. -/
def tradeBatch : Response :=
  { type := Type'.Update
    market := some "BTC-PERP"
    data := some (ResponseData.Trades [⟨1⟩, ⟨2⟩, ⟨3⟩]) }


/-! Helper lemmas shared by the claim theorems. -/

/-- handle_response appends exactly the frame events to the buffer. -/
theorem handle_response_eq (ws : Ws) (r : Response) :
    ws.handle_response r = { ws with buf := ws.buf ++ frameEvents r } := by
  unfold Ws.handle_response frameEvents
  cases h : r.data with
  | none => simp
  | some d => cases d <;> simp

/-- handle_response changes neither the active channels nor the flag. -/
theorem handle_response_channels (ws : Ws) (r : Response) :
    (ws.handle_response r).channels = ws.channels ∧
      (ws.handle_response r).is_authenticated = ws.is_authenticated := by
  rw [handle_response_eq]
  exact ⟨rfl, rfl⟩

/-- A successful push loop appends the requested channels and changes
nothing else. -/
theorem pushChannels_ok (channels : List Channel) (ws ws₁ : Ws)
    (h : ws.pushChannels channels = (ws₁, none)) :
    ws₁ = { ws with channels := ws.channels ++ channels } := by
  induction channels generalizing ws with
  | nil =>
    rw [Ws.pushChannels] at h
    simp only [Prod.mk.injEq] at h
    simp [← h.1]
  | cons c rest ih =>
    rw [Ws.pushChannels] at h
    split at h
    · exact absurd h (by simp)
    · rw [ih _ h]
      simp

/-- The push loop can only fail with SocketNotAuthenticated. -/
theorem pushChannels_err (channels : List Channel) (ws ws₁ : Ws) (e : Error)
    (h : ws.pushChannels channels = (ws₁, some e)) :
    e = Error.SocketNotAuthenticated := by
  induction channels generalizing ws with
  | nil => rw [Ws.pushChannels] at h; simp at h
  | cons c rest ih =>
    rw [Ws.pushChannels] at h
    split at h
    · simp only [Prod.mk.injEq, Option.some.injEq] at h
      exact h.2.symm
    · exact ih _ h

/-- On an unauthenticated session the push loop stops at the first private
channel, having pushed exactly the channels before it. -/
theorem pushChannels_private (pre : List Channel) (ws : Ws) (priv : Channel)
    (rest : List Channel)
    (hauth : ws.is_authenticated = false)
    (hpriv : priv = Channel.Fills ∨ priv = Channel.Orders)
    (hpre : ∀ c ∈ pre, c ≠ Channel.Fills ∧ c ≠ Channel.Orders) :
    ws.pushChannels (pre ++ priv :: rest) =
      ({ ws with channels := ws.channels ++ pre }, some Error.SocketNotAuthenticated) := by
  induction pre generalizing ws with
  | nil =>
    rw [List.nil_append, Ws.pushChannels]
    have hcond : ((priv == Channel.Fills || priv == Channel.Orders) && !ws.is_authenticated) = true := by
      rcases hpriv with h | h <;> simp [h, hauth]
    rw [hcond]
    simp
  | cons c pre' ih =>
    have hc := hpre c (by simp)
    rw [List.cons_append, Ws.pushChannels]
    have hcond : ((c == Channel.Fills || c == Channel.Orders) && !ws.is_authenticated) = false := by
      simp [hc.1, hc.2]
    rw [hcond]
    simp only [Bool.false_eq_true, if_false]
    rw [ih { ws with channels := ws.channels ++ [c] } hauth
      (fun d hd => hpre d (by simp [hd]))]
    simp

/-- The confirmation wait changes neither the active channels nor the flag. -/
theorem waitConfirm_state (fuel : Nat) (ws ws' : Ws) (subscribe : Bool)
    (tape tape' : List Response) (b : Bool)
    (h : ws.waitConfirm subscribe fuel tape = some (b, ws', tape')) :
    ws'.channels = ws.channels ∧ ws'.is_authenticated = ws.is_authenticated := by
  induction fuel generalizing ws tape with
  | zero =>
    rw [Ws.waitConfirm] at h
    simp only [Option.some.injEq, Prod.mk.injEq] at h
    rw [← h.2.1]
    exact ⟨rfl, rfl⟩
  | succ fuel ih =>
    rw [Ws.waitConfirm] at h
    split at h
    · exact absurd h (by simp)
    · rename_i r tape₁ heq
      by_cases hc : isConfirm subscribe r = true
      · rw [if_pos hc] at h
        simp only [Option.some.injEq, Prod.mk.injEq] at h
        rw [← h.2.1]
        exact ⟨rfl, rfl⟩
      · rw [if_neg hc] at h
        have hrec := ih _ _ h
        rcases handle_response_channels ws r with ⟨h1, h2⟩
        exact ⟨hrec.1.trans h1, hrec.2.trans h2⟩

/-- The subscribe/unsubscribe protocol changes neither the active channels
nor the flag (only the buffer and the tape). -/
theorem sou_state (channels : List Channel) (ws ws' : Ws) (subscribe : Bool)
    (tape tape' : List Response) (res : Except Error Unit) (sent : List OpFrame)
    (h : ws.subscribe_or_unsubscribe channels subscribe tape = some (res, ws', tape', sent)) :
    ws'.channels = ws.channels ∧ ws'.is_authenticated = ws.is_authenticated := by
  induction channels generalizing ws tape res sent with
  | nil =>
    rw [Ws.subscribe_or_unsubscribe] at h
    simp only [Option.some.injEq, Prod.mk.injEq] at h
    rw [← h.2.1]
    exact ⟨rfl, rfl⟩
  | cons c rest ih =>
    rw [Ws.subscribe_or_unsubscribe] at h
    split at h
    · exact absurd h (by simp)
    · rename_i ws₁ tape₁ heq
      split at h
      · exact absurd h (by simp)
      · rename_i res₂ ws₂ tape₂ sent₂ heq₂
        simp only [Option.some.injEq, Prod.mk.injEq] at h
        obtain ⟨h1, h2, h3, h4⟩ := h
        subst h1; subst h2; subst h3
        have ha := waitConfirm_state 100 ws ws₁ subscribe tape tape₁ true heq
        have hb := ih _ _ _ _ heq₂
        exact ⟨hb.1.trans ha.1, hb.2.trans ha.2⟩
    · rename_i ws₁ tape₁ heq
      simp only [Option.some.injEq, Prod.mk.injEq] at h
      obtain ⟨h1, h2, h3, h4⟩ := h
      subst h2
      exact waitConfirm_state 100 ws ws₁ subscribe tape tape₁ false heq

/-- If the reader finds nothing, the tape holds only pongs. -/
theorem next_response_none (tape : List Response) (h : next_response tape = none) :
    nonPong tape = [] := by
  induction tape with
  | nil => rfl
  | cons r rest ih =>
    rw [next_response] at h
    by_cases hp : (r.type == Type'.Pong) = true
    · rw [if_pos hp] at h
      have hrec := ih h
      unfold nonPong at hrec ⊢
      simp [List.filter_cons, hp, hrec]
    · rw [if_neg hp] at h
      exact absurd h (by simp)

/-- The frame the reader returns is the head of the pong-filtered tape, the
rest of the tape filters to its tail, and the frame is a non-pong member of
the tape. -/
theorem next_response_some (tape tape' : List Response) (r : Response)
    (h : next_response tape = some (r, tape')) :
    nonPong tape = r :: nonPong tape' ∧ (r.type == Type'.Pong) = false ∧ r ∈ tape := by
  induction tape generalizing tape' with
  | nil => exact absurd h (by rw [next_response]; simp)
  | cons a rest ih =>
    rw [next_response] at h
    by_cases hp : (a.type == Type'.Pong) = true
    · rw [if_pos hp] at h
      have hrec := ih _ h
      refine ⟨?_, hrec.2.1, List.mem_cons_of_mem a hrec.2.2⟩
      have h1 := hrec.1
      unfold nonPong at h1 ⊢
      simp [List.filter_cons, hp, h1]
    · rw [if_neg hp] at h
      simp only [Option.some.injEq, Prod.mk.injEq] at h
      obtain ⟨h1, h2⟩ := h
      subst h1; subst h2
      have hp' : (a.type == Type'.Pong) = false := by
        simp at hp; simp [hp]
      refine ⟨?_, hp', by simp⟩
      unfold nonPong
      simp [List.filter_cons, hp']

/-- Reading strictly shortens the tape. -/
theorem next_response_length (tape tape' : List Response) (r : Response)
    (h : next_response tape = some (r, tape')) : tape'.length < tape.length := by
  induction tape generalizing tape' with
  | nil => exact absurd h (by rw [next_response]; simp)
  | cons a rest ih =>
    rw [next_response] at h
    by_cases hp : (a.type == Type'.Pong) = true
    · rw [if_pos hp] at h
      exact Nat.lt_trans (ih _ h) (by simp)
    · rw [if_neg hp] at h
      simp only [Option.some.injEq, Prod.mk.injEq] at h
      simp [← h.2]

/-- When the first fuel frames the reader can deliver all fail the
confirmation guard, the wait exhausts its bound and reports false. -/
theorem waitConfirm_nonmatching (fuel : Nat) (ws : Ws) (subscribe : Bool)
    (tape : List Response)
    (hlen : fuel ≤ (nonPong tape).length)
    (hnm : ∀ r ∈ (nonPong tape).take fuel, isConfirm subscribe r = false) :
    ∃ ws' tape', ws.waitConfirm subscribe fuel tape = some (false, ws', tape') := by
  induction fuel generalizing ws tape with
  | zero => exact ⟨ws, tape, by rw [Ws.waitConfirm]⟩
  | succ fuel ih =>
    cases hn : next_response tape with
    | none =>
      rw [next_response_none tape hn] at hlen
      exact absurd hlen (by simp)
    | some p =>
      obtain ⟨r, tape₁⟩ := p
      have hs := next_response_some tape tape₁ r hn
      have hr : isConfirm subscribe r = false := by
        apply hnm
        rw [hs.1]
        simp
      have hlen' : fuel ≤ (nonPong tape₁).length := by
        rw [hs.1] at hlen
        simpa using hlen
      have hnm' : ∀ r' ∈ (nonPong tape₁).take fuel, isConfirm subscribe r' = false := by
        intro r' hr'
        apply hnm
        rw [hs.1, List.take_succ_cons]
        exact List.mem_cons_of_mem r hr'
      obtain ⟨ws', tape', hrec⟩ := ih (ws.handle_response r) tape₁ hlen' hnm'
      refine ⟨ws', tape', ?_⟩
      rw [Ws.waitConfirm, hn]
      simp only [hr, Bool.false_eq_true, if_false]
      exact hrec

/-- Splitting a batch: a confirmed front part composes with the processing
of the back part, the sent frames concatenating. -/
theorem sou_append (pre suf : List Channel) (ws ws₁ : Ws) (subscribe : Bool)
    (tape tape₁ : List Response) (sent₁ : List OpFrame)
    (h : ws.subscribe_or_unsubscribe pre subscribe tape = some (Except.ok (), ws₁, tape₁, sent₁)) :
    ws.subscribe_or_unsubscribe (pre ++ suf) subscribe tape =
      (ws₁.subscribe_or_unsubscribe suf subscribe tape₁).map
        (fun x => (x.1, x.2.1, x.2.2.1, sent₁ ++ x.2.2.2)) := by
  induction pre generalizing ws tape sent₁ with
  | nil =>
    rw [Ws.subscribe_or_unsubscribe] at h
    simp only [Option.some.injEq, Prod.mk.injEq] at h
    obtain ⟨h1, h2, h3, h4⟩ := h
    subst h2; subst h3; subst h4
    rw [List.nil_append]
    cases hs : ws.subscribe_or_unsubscribe suf subscribe tape with
    | none => simp
    | some q => simp
  | cons c pre' ih =>
    rw [Ws.subscribe_or_unsubscribe] at h
    rw [List.cons_append, Ws.subscribe_or_unsubscribe]
    split at h
    · exact absurd h (by simp)
    · rename_i w₁ t₁ heq
      split at h
      · exact absurd h (by simp)
      · rename_i res₂ ws₂ tape₂ sent₂ heq₂
        simp only [Option.some.injEq, Prod.mk.injEq] at h
        obtain ⟨h1, h2, h3, h4⟩ := h
        subst h1; subst h2; subst h3
        rw [ih _ _ _ heq₂]
        cases hs : Ws.subscribe_or_unsubscribe ws₂ suf subscribe tape₂ with
        | none => simp
        | some q => simp [← h4]
    · rename_i w₁ t₁ heq
      simp only [Option.some.injEq, Prod.mk.injEq] at h
      exact absurd h.1 (by simp)

/-- A nonempty buffer is popped first: no network read happens. -/
theorem poll_next_pop (ws : Ws) (tape : List Response) (d : Option Symbol × Data)
    (rest : List (Option Symbol × Data)) (hbuf : ws.buf = d :: rest) :
    ws.poll_next tape = some (d, { ws with buf := rest }, tape) := by
  obtain ⟨chans, b, auth⟩ := ws
  replace hbuf : b = d :: rest := hbuf
  subst hbuf
  rw [Ws.poll_next]

/-- With an empty buffer, a poll behaves as reading one frame through
next_response and demultiplexing it: the inlined pong skip of poll_next
agrees with the reader of ws/mod.rs lines 280-302. -/
theorem poll_next_read (ws : Ws) (tape tape' : List Response) (r : Response)
    (hbuf : ws.buf = []) (hn : next_response tape = some (r, tape')) :
    ws.poll_next tape = (ws.handle_response r).poll_next tape' := by
  obtain ⟨chans, b, auth⟩ := ws
  replace hbuf : b = [] := hbuf
  subst hbuf
  induction tape generalizing tape' with
  | nil => exact absurd hn (by rw [next_response]; simp)
  | cons a t ih =>
    rw [next_response] at hn
    rw [Ws.poll_next]
    by_cases hp : (a.type == Type'.Pong) = true
    · rw [if_pos hp] at hn ⊢
      exact ih _ hn
    · rw [if_neg hp] at hn ⊢
      simp only [Option.some.injEq, Prod.mk.injEq] at hn
      rw [hn.1, hn.2]

/-- n polls against a buffer holding at least n events pop exactly the first
n of them, reading nothing from the tape. -/
theorem drainN_buf (n : Nat) (ws : Ws) (tape : List Response)
    (h : n ≤ ws.buf.length) :
    ws.drainN n tape = some (ws.buf.take n, { ws with buf := ws.buf.drop n }, tape) := by
  induction n generalizing ws with
  | zero => rw [Ws.drainN]; simp
  | succ n ih =>
    cases hb : ws.buf with
    | nil => rw [hb] at h; exact absurd h (by simp)
    | cons d bs =>
      have hn : n ≤ bs.length := by rw [hb] at h; simpa using h
      rw [Ws.drainN, poll_next_pop ws tape d bs hb]
      simp [ih { ws with buf := bs } hn, hb]

/-! Claim theorems. -/

/-- C1, counterexample: subscribing to the same channel twice in one call,
with two confirmations on the tape, succeeds, yet the active-channel list
then holds the channel twice — the claimed duplicate-freeness fails. -/
theorem subscribe_duplicates_cex :
    Ws.subscribe wsEmpty [t1, t1] [subConf, subConf] =
      some (Except.ok (), { wsEmpty with channels := [t1, t1] }, [],
        [opFrame true t1, opFrame true t1]) ∧
      ¬ ([t1, t1] : List Channel).Nodup := by
  refine ⟨by rfl, fun h => ?_⟩
  exact (List.nodup_cons.mp h).1 (by simp)

/-- C1, amended: after every successful subscribe call the active-channel
list is the prior list with all requested channels appended, so its
membership is the union of the prior membership and the request; but a
channel requested redundantly or already present appears more than once —
there is no deduplication. -/
theorem subscribe_ok_channels (ws ws' : Ws) (channels : List Channel)
    (tape tape' : List Response) (sent : List OpFrame)
    (h : ws.subscribe channels tape = some (Except.ok (), ws', tape', sent)) :
    ws'.channels = ws.channels ++ channels ∧
      ∀ c : Channel, c ∈ ws'.channels ↔ c ∈ ws.channels ∨ c ∈ channels := by
  have hch : ws'.channels = ws.channels ++ channels := by
    rw [Ws.subscribe] at h
    split at h
    · rename_i ws₁ e heq
      simp only [Option.some.injEq, Prod.mk.injEq] at h
      exact absurd h.1 (by simp)
    · rename_i ws₁ heq
      have h1 := pushChannels_ok channels ws ws₁ heq
      have h2 := sou_state channels ws₁ ws' true tape tape' _ _ h
      rw [h2.1, h1]
  refine ⟨hch, fun c => ?_⟩
  rw [hch]
  simp [List.mem_append]

/-- C1 witness: a concrete successful one-channel subscribe run. -/
theorem subscribe_ok_channels_witness :
    ({ wsEmpty with channels := [t1] } : Ws).channels = wsEmpty.channels ++ [t1] :=
  (subscribe_ok_channels wsEmpty { wsEmpty with channels := [t1] } [t1] [subConf] []
    [opFrame true t1] (by rfl)).1

/-- C2: a frame carrying a list of k trades enqueues exactly the k trade
events at the back of the buffer, in list order, each paired with the frame
market; and, starting from an empty buffer, k consumer polls deliver exactly
those k events while the tape beyond this frame is left untouched — so all k
are delivered before any event of a later frame. -/
theorem trades_batch_order (ws : Ws) (r : Response) (trades : List Trade)
    (rest : List Response)
    (hbuf : ws.buf = []) (htype : (r.type == Type'.Pong) = false)
    (hdata : r.data = some (ResponseData.Trades trades)) (hne : trades ≠ []) :
    (ws.handle_response r).buf =
      ws.buf ++ trades.map (fun trade => (r.market, Data.Trade trade)) ∧
      ws.drainN trades.length (r :: rest) =
        some (trades.map (fun trade => (r.market, Data.Trade trade)),
          { ws with buf := [] }, rest) := by
  constructor
  · rw [handle_response_eq]
    simp [frameEvents, hdata]
  · cases trades with
    | nil => exact absurd rfl hne
    | cons t ts =>
      have hnr : next_response (r :: rest) = some (r, rest) := by
        rw [next_response]
        simp [htype]
      have hhandle : ws.handle_response r =
          { ws with buf := (t :: ts).map (fun trade => (r.market, Data.Trade trade)) } := by
        rw [handle_response_eq]
        simp [frameEvents, hdata, hbuf]
      have hpoll : ws.poll_next (r :: rest) =
          some ((r.market, Data.Trade t),
            { ws with buf := ts.map (fun trade => (r.market, Data.Trade trade)) }, rest) := by
        rw [poll_next_read ws (r :: rest) rest r hbuf hnr, hhandle]
        exact poll_next_pop _ rest _ _ (by simp)
      rw [List.length_cons, Ws.drainN, hpoll]
      have hrec := drainN_buf ts.length
        { ws with buf := ts.map (fun trade => (r.market, Data.Trade trade)) } rest (by simp)
      simp only [hrec]
      simp [List.take_of_length_le, List.drop_of_length_le]

/-- C2 witness: a concrete three-trade batch followed by one more frame. -/
theorem trades_batch_order_witness :
    (wsEmpty.handle_response tradeBatch).buf =
      wsEmpty.buf ++ [⟨1⟩, ⟨2⟩, ⟨3⟩].map
        (fun trade => (tradeBatch.market, Data.Trade trade)) ∧
      wsEmpty.drainN ([⟨1⟩, ⟨2⟩, ⟨3⟩] : List Trade).length (tradeBatch :: [subConf]) =
        some ([⟨1⟩, ⟨2⟩, ⟨3⟩].map
            (fun trade => (tradeBatch.market, Data.Trade trade)),
          { wsEmpty with buf := [] }, [subConf]) :=
  trades_batch_order wsEmpty tradeBatch
    [⟨1⟩, ⟨2⟩, ⟨3⟩] [subConf] (by rfl) (by rfl) (by rfl) (by simp)

/-- C3, counterexample: after the op frame, 100 consecutive inbound frames
(a pong followed by 99 payload-less data frames) are read and none of them
is of the matching confirmation type, yet the call succeeds rather than
failing: the reader consumes pong frames silently, so they do not count
toward the bound of 100. -/
theorem confirmation_bound_cex :
    (∀ r ∈ (pongR :: List.replicate 99 junk ++ [subConf]).take 100,
      r.type ≠ Type'.Subscribed) ∧
      Ws.subscribe wsEmpty [t1] (pongR :: List.replicate 99 junk ++ [subConf]) =
        some (Except.ok (), { wsEmpty with channels := [t1] }, [], [opFrame true t1]) := by
  exact ⟨by decide, by rfl⟩

/-- C3, amended: the 100 frames counted are those delivered by the reader,
which consumes pong frames without counting them.  If a prefix of the batch
has been confirmed, and the first 100 reader-delivered (non-pong) frames of
the remaining tape all fail the confirmation guard of the current channel,
the whole call fails with MissingSubscriptionConfirmation, and the op frames
sent are exactly those of the confirmed prefix plus the one for the failing
channel — none for the remaining channels of the batch. -/
theorem confirmation_bound (ws ws₁ : Ws) (pre : List Channel) (c : Channel)
    (rest : List Channel) (subscribe : Bool) (tape tape₁ : List Response)
    (sent₁ : List OpFrame)
    (hpre : ws.subscribe_or_unsubscribe pre subscribe tape =
      some (Except.ok (), ws₁, tape₁, sent₁))
    (hlen : 100 ≤ (nonPong tape₁).length)
    (hnm : ∀ r ∈ (nonPong tape₁).take 100, isConfirm subscribe r = false) :
    (ws.subscribe_or_unsubscribe (pre ++ c :: rest) subscribe tape).map
        (fun x => (x.1, x.2.2.2)) =
      some (Except.error Error.MissingSubscriptionConfirmation,
        sent₁ ++ [opFrame subscribe c]) := by
  obtain ⟨ws', tape', hwait⟩ := waitConfirm_nonmatching 100 ws₁ subscribe tape₁ hlen hnm
  have hsou : ws₁.subscribe_or_unsubscribe (c :: rest) subscribe tape₁ =
      some (Except.error Error.MissingSubscriptionConfirmation, ws', tape',
        [opFrame subscribe c]) := by
    rw [Ws.subscribe_or_unsubscribe, hwait]
  rw [sou_append pre (c :: rest) ws ws₁ subscribe tape tape₁ sent₁ hpre, hsou]
  simp

/-- C3 witness: an empty confirmed prefix, a tape of 100 junk frames, and a
second channel in the batch that is never attempted. -/
theorem confirmation_bound_witness :
    (Ws.subscribe_or_unsubscribe wsEmpty ([] ++ t1 :: [tick]) true
        (List.replicate 100 junk)).map (fun x => (x.1, x.2.2.2)) =
      some (Except.error Error.MissingSubscriptionConfirmation,
        [] ++ [opFrame true t1]) :=
  confirmation_bound wsEmpty wsEmpty [] t1 [tick] true (List.replicate 100 junk)
    (List.replicate 100 junk) [] (by rfl) (by decide) (by decide)

/-- C4, counterexample: an unauthenticated subscribe to a list holding Fills
after a public channel returns SocketNotAuthenticated and sends no frame,
yet the active-channel set has changed: the public channel preceding the
private one was already pushed. -/
theorem private_channel_cex :
    Ws.subscribe wsEmpty [t1, Channel.Fills] [] =
      some (Except.error Error.SocketNotAuthenticated,
        { wsEmpty with channels := [t1] }, [], []) ∧
      ({ wsEmpty with channels := [t1] } : Ws).channels ≠ wsEmpty.channels := by
  exact ⟨by rfl, by simp [wsEmpty]⟩

/-- C4, amended: on an unauthenticated session, a subscribe whose request
holds Fills or Orders returns SocketNotAuthenticated and sends no frame,
and the active-channel set gains exactly the requested channels preceding
the first private channel of the list — so it is unchanged exactly when the
private channel comes first. -/
theorem private_channel_rejected (ws : Ws) (pre rest : List Channel) (priv : Channel)
    (tape : List Response)
    (hauth : ws.is_authenticated = false)
    (hpriv : priv = Channel.Fills ∨ priv = Channel.Orders)
    (hpre : ∀ c ∈ pre, c ≠ Channel.Fills ∧ c ≠ Channel.Orders) :
    ws.subscribe (pre ++ priv :: rest) tape =
      some (Except.error Error.SocketNotAuthenticated,
        { ws with channels := ws.channels ++ pre }, tape, []) := by
  rw [Ws.subscribe, pushChannels_private pre ws priv rest hauth hpriv hpre]

/-- C4 witness: the concrete two-channel run, Fills second. -/
theorem private_channel_rejected_witness :
    Ws.subscribe wsEmpty ([t1] ++ Channel.Fills :: []) [] =
      some (Except.error Error.SocketNotAuthenticated,
        { wsEmpty with channels := wsEmpty.channels ++ [t1] }, [], []) :=
  private_channel_rejected wsEmpty [t1] [] Channel.Fills [] (by rfl)
    (Or.inl rfl) (by decide)

/-- C5: an unsubscribe call in which some requested channel is missing from
the active set fails, before any frame is sent, with
NotSubscribedToThisChannel naming the first such channel, and the session —
active set included — is returned unchanged.  The find? hypothesis holds
exactly when some requested channel is not active; the conclusion confirms
the named channel is a requested non-member. -/
theorem unsubscribe_not_subscribed (ws : Ws) (channels : List Channel)
    (tape : List Response) (c : Channel)
    (hfind : channels.find? (fun d => !(ws.channels.contains d)) = some c) :
    c ∈ channels ∧ c ∉ ws.channels ∧
      ws.unsubscribe channels tape =
        some (Except.error (Error.NotSubscribedToThisChannel c), ws, tape, []) := by
  refine ⟨List.mem_of_find?_eq_some hfind, ?_, ?_⟩
  · have hp := List.find?_some hfind
    simpa using hp
  · rw [Ws.unsubscribe, hfind]

/-- C5 witness: a session holding only Orders, unsubscribing a trades
channel. -/
theorem unsubscribe_not_subscribed_witness :
    tEth ∈ [tEth] ∧ tEth ∉ wsOrders.channels ∧
      Ws.unsubscribe wsOrders [tEth] [] =
        some (Except.error (Error.NotSubscribedToThisChannel tEth), wsOrders, [], []) :=
  unsubscribe_not_subscribed wsOrders [tEth] [] tEth (by rfl)

/-- C6, counterexample: a frame of type subscribed that carries a trades
payload is demultiplexed like any data frame — the delivered event
originates from a subscribed-type frame, contradicting the claim that
frames of type subscribed never produce a delivered event. -/
theorem subscribed_frame_event_cex :
    sneaky.type = Type'.Subscribed ∧
      Ws.poll_next wsEmpty [sneaky] =
        some ((some "BTC-PERP", Data.Trade ⟨7⟩), wsEmpty, []) := by
  exact ⟨rfl, by rfl⟩

/-- C6, amended: every event a poll delivers is either one already buffered
or one contributed by a non-pong frame of the tape that carries a data
payload (a frame with no payload contributes the empty event list); in
particular no pong frame ever surfaces as an event.  Frames of type
subscribed or unsubscribed produce no events only because, on the real wire,
they carry no data payload — the demultiplexer does not inspect the type. -/
theorem event_origin (ws ws' : Ws) (tape tape' : List Response)
    (ev : Option Symbol × Data)
    (h : ws.poll_next tape = some (ev, ws', tape')) :
    ev ∈ ws.buf ++ (nonPong tape).flatMap frameEvents := by
  induction tape generalizing ws with
  | nil =>
    obtain ⟨chans, b, auth⟩ := ws
    cases b with
    | nil => rw [Ws.poll_next] at h; exact absurd h (by simp)
    | cons d rest =>
      rw [Ws.poll_next] at h
      simp only [Option.some.injEq, Prod.mk.injEq] at h
      simp [← h.1]
  | cons r t ih =>
    obtain ⟨chans, b, auth⟩ := ws
    cases b with
    | cons d rest =>
      rw [Ws.poll_next] at h
      simp only [Option.some.injEq, Prod.mk.injEq] at h
      simp [← h.1]
    | nil =>
      rw [Ws.poll_next] at h
      by_cases hp : (r.type == Type'.Pong) = true
      · rw [if_pos hp] at h
        have hnp : nonPong (r :: t) = nonPong t := by
          unfold nonPong
          simp [List.filter_cons, hp]
        rw [hnp]
        exact ih _ h
      · rw [if_neg hp] at h
        have hih := ih _ h
        rw [handle_response_eq] at hih
        have hnp : nonPong (r :: t) = r :: nonPong t := by
          unfold nonPong
          simp [List.filter_cons, hp]
        rw [hnp]
        simpa using hih

/-- C6 witness: a concrete delivered event and its originating data frame. -/
theorem event_origin_witness :
    ((some "BTC-PERP" : Option Symbol), Data.Trade ⟨7⟩) ∈
      wsEmpty.buf ++ (nonPong [tradeFrame]).flatMap frameEvents :=
  event_origin wsEmpty wsEmpty [tradeFrame] []
    ((some "BTC-PERP" : Option Symbol), Data.Trade ⟨7⟩) (by rfl)

/-- C7, counterexample: a proxied connect whose proxy dial fails panics with
the expect message instead of returning a ConnectionError to the caller. -/
theorem connect_proxy_panic_cex :
    (connect_with_endpoint hmacConcat 0 none none (some "127.0.0.1:9050")
        ConnectStep.proxyDialFail).1 =
      ConnectOutcome.panicked "cannot connect to proxy" ∧
      (connect_with_endpoint hmacConcat 0 none none (some "127.0.0.1:9050")
          ConnectStep.proxyDialFail).1 ≠ ConnectOutcome.error Error.ConnectionError := by
  exact ⟨rfl, by decide⟩

/-- C7, amended: when any stage of establishing the connection fails, no
session value — partial or otherwise — is produced and no login frame is
sent; on the direct path the failure is returned as ConnectionError, but on
the proxied path the code unwraps the dial, TLS and handshake results, so
the failure panics instead of returning an error to the caller. -/
theorem connect_failure (hmac : List Nat → List Nat → List Nat) (timestamp : Nat)
    (key_secret : Option (String × String)) (subaccount : Option String)
    (proxy : Option String) (step : ConnectStep) (hstep : step ≠ ConnectStep.ok) :
    (connect_with_endpoint hmac timestamp key_secret subaccount proxy step).2 = [] ∧
      ((connect_with_endpoint hmac timestamp key_secret subaccount proxy step).1).isSession
        = false ∧
      (proxy = none →
        (connect_with_endpoint hmac timestamp key_secret subaccount proxy step).1 =
          ConnectOutcome.error Error.ConnectionError) ∧
      (proxy.isSome = true →
        ((connect_with_endpoint hmac timestamp key_secret subaccount proxy step).1).isPanicked
          = true) := by
  cases step with
  | ok => exact absurd rfl hstep
  | proxyDialFail =>
    cases proxy <;>
      simp [connect_with_endpoint, ConnectOutcome.isSession, ConnectOutcome.isPanicked]
  | tlsFail =>
    cases proxy <;>
      simp [connect_with_endpoint, ConnectOutcome.isSession, ConnectOutcome.isPanicked]
  | wsHandshakeFail =>
    cases proxy <;>
      simp [connect_with_endpoint, ConnectOutcome.isSession, ConnectOutcome.isPanicked]

/-- C7 witness: the direct path with a failing handshake. -/
theorem connect_failure_witness :
    (connect_with_endpoint hmacConcat 0 none none none ConnectStep.wsHandshakeFail).2 = [] ∧
      ((connect_with_endpoint hmacConcat 0 none none none
        ConnectStep.wsHandshakeFail).1).isSession = false ∧
      ((none : Option String) = none →
        (connect_with_endpoint hmacConcat 0 none none none ConnectStep.wsHandshakeFail).1 =
          ConnectOutcome.error Error.ConnectionError) ∧
      ((none : Option String).isSome = true →
        ((connect_with_endpoint hmacConcat 0 none none none
          ConnectStep.wsHandshakeFail).1).isPanicked = true) :=
  connect_failure hmacConcat 0 none none none ConnectStep.wsHandshakeFail (by decide)

/-- C8, counterexample: the op frame for Fills does contain a market field,
serialized with the empty string as its value, contradicting the claim that
no market field is present. -/
theorem fills_market_field_cex :
    ("market", "") ∈ (opFrame true Channel.Fills).fields ∧
      (opFrame true Channel.Fills).channel = "fills" := by
  exact ⟨by simp [opFrame, OpFrame.fields, Channel.wire], by rfl⟩

/-- C8, amended: subscribe and unsubscribe op frames for Fills and Orders
use the wire names fills and orders respectively, and carry a market field
whose value is the empty string — the field is present with an empty value,
not absent. -/
theorem private_channel_wire (subscribe : Bool) :
    (opFrame subscribe Channel.Fills).fields =
      [("op", if subscribe then "subscribe" else "unsubscribe"),
        ("channel", "fills"), ("market", "")] ∧
      (opFrame subscribe Channel.Orders).fields =
        [("op", if subscribe then "subscribe" else "unsubscribe"),
          ("channel", "orders"), ("market", "")] := by
  cases subscribe <;> exact ⟨rfl, rfl⟩

/-- C9: connect sends a login frame exactly when credentials are supplied;
the frame carries the key, a signature equal to the hex encoding of the
HMAC-SHA256 (keyed by the secret) of the string formed of the millisecond
timestamp followed by websocket_login, the timestamp itself (cast to u64),
and the optional sub-account; and the session is marked authenticated
exactly when credentials were supplied — construction reads no server
response, on either connection path. -/
theorem login_frame (hmac : List Nat → List Nat → List Nat) (timestamp : Nat)
    (key_secret : Option (String × String)) (subaccount : Option String)
    (proxy : Option String) :
    (connect_with_endpoint hmac timestamp key_secret subaccount proxy ConnectStep.ok).1 =
      ConnectOutcome.session
        { channels := [], buf := [], is_authenticated := key_secret.isSome } ∧
      (connect_with_endpoint hmac timestamp key_secret subaccount proxy ConnectStep.ok).2 =
        (match key_secret with
          | none => []
          | some (key, secret) =>
            [{ key := key
               sign := hexEncode (hmac (strBytes (toString timestamp ++ "websocket_login"))
                 (strBytes secret))
               time := timestamp % 2 ^ 64
               subaccount := subaccount }]) := by
  cases key_secret with
  | none => cases proxy <;> exact ⟨rfl, rfl⟩
  | some ks =>
    obtain ⟨key, secret⟩ := ks
    cases proxy <;> exact ⟨rfl, rfl⟩

/-- C10: MissingSubscriptionConfirmation can only arise after the
push-and-check loop has completed, and the per-channel protocol never
touches the channel list, so when a subscribe call fails this way the
active list nevertheless holds every requested channel — confirmed,
unconfirmed and never-attempted alike — appended after the prior ones. -/
theorem subscribe_partial_on_timeout (ws ws' : Ws) (channels : List Channel)
    (tape tape' : List Response) (sent : List OpFrame)
    (h : ws.subscribe channels tape =
      some (Except.error Error.MissingSubscriptionConfirmation, ws', tape', sent)) :
    ws'.channels = ws.channels ++ channels := by
  rw [Ws.subscribe] at h
  split at h
  · rename_i ws₁ e heq
    simp only [Option.some.injEq, Prod.mk.injEq] at h
    have he := pushChannels_err channels ws ws₁ e heq
    rw [he] at h
    exact absurd h.1 (by simp)
  · rename_i ws₁ heq
    have h1 := pushChannels_ok channels ws ws₁ heq
    have h2 := sou_state channels ws₁ ws' true tape tape' _ _ h
    rw [h2.1, h1]

/-- C10 witness: a one-channel subscribe run that times out on 100 junk
frames, the channel remaining in the active set. -/
theorem subscribe_partial_on_timeout_witness :
    ({ wsEmpty with channels := [tick] } : Ws).channels = wsEmpty.channels ++ [tick] :=
  subscribe_partial_on_timeout wsEmpty { wsEmpty with channels := [tick] } [tick]
    (List.replicate 100 junk) [] [opFrame true tick] (by rfl)

end Ftx
